import Mathlib

/-!
Verification of the macro-calendar notification bot (`macro_copilot_mvp.py`)

Shallow embedding of the pure core of the program:

* `parse_number`           — the loose numeric-string parser (floats modelled as `Rat`;
                             every value the program manipulates is a finite decimal,
                             exactly representable);
* `build_id`               — the dedup-key builder `_build_id`;
* `parse_te_datetime`      — `_parse_te_datetime` (the five `strptime` formats with
                             CPython's field regexes and backtracking, plus the
                             `datetime` constructor's day-of-month/year validation);
* `fetch_calendar`         — the pure part of `TradingEconomicsProvider.fetch_calendar`:
                             query-parameter construction and per-row normalization
                             (the HTTP transport is external; the provider's rows are
                             a parameter);
* `interpret_event`        — the classification engine (`direction`/`score`/`tags`/
                             `nuance`; the rendered message strings `summary`/`details`
                             are presentation only and are not modelled);
* `poll_and_notify`        — one poll cycle over a fetched event list, with the
                             persisted processed-key set threaded explicitly and the
                             fallible chat sends modelled by an explicit failure oracle;
* `subscribe`/`unsubscribe` — the subscriber-list updates;
* `parse_config_args`      — the `/config` argument parser.

Python conventions modelled explicitly: `x or y` on strings returns `y` whenever `x`
is falsy (`None` or `""`); f-string interpolation renders `None` as `"None"`;
`datetime` comparison is comparison on the absolute-seconds timeline (`DateTime.toSec`,
via the standard civil-from-days conversion); Python's `set` of processed keys is
modelled as a list with membership semantics.
-/

/-- Python truthiness of an optional string: `None` and `""` are falsy. -/
def pyTruthy : Option String → Bool
  | none => false
  | some s => s ≠ ""

/-- Python `a or b` where both operands are optional strings:
returns `b` (whatever it is) when `a` is falsy. -/
def pyOr (a b : Option String) : Option String :=
  if pyTruthy a then a else b

/-- Python `a or b` where `a` is an optional string and `b` a plain string:
the value of `a` when truthy, otherwise `b`. -/
def pyOrS (a : Option String) (b : String) : String :=
  match a with
  | none => b
  | some s => if s = "" then b else s

/-- f-string rendering of an optional string: Python prints `None` for a null. -/
def fstr : Option String → String
  | none => "None"
  | some s => s

/-! ### Python string primitives

Modelled structurally over `List Char` (the byte/position-based core `String`
functions do not reduce well inside the kernel).  `strip`/`upper`/`lower` are the
ASCII restrictions of their Python counterparts; every string the claims exercise
is ASCII. -/

/-- Python `str.strip()` (ASCII whitespace). -/
def pyStrip (cs : List Char) : List Char :=
  ((cs.dropWhile Char.isWhitespace).reverse.dropWhile Char.isWhitespace).reverse

/-- Substring test on character lists (Python's `needle in hay`). -/
def startsWithSeq : List Char → List Char → Bool
  | _, [] => true
  | [], _ :: _ => false
  | h :: t, n :: m => h = n && startsWithSeq t m

/-- Helper for `pyReplace`: while `skip > 0`, drop characters already consumed by a
match; at `skip = 0`, emit the replacement on a match (scheduling the rest of the
matched characters to be skipped) and copy the character otherwise. -/
def pyReplaceAux (pat repl : List Char) : List Char → Nat → List Char
  | [], _ => []
  | _c :: t, n + 1 => pyReplaceAux pat repl t n
  | c :: t, 0 =>
      if startsWithSeq (c :: t) pat then repl ++ pyReplaceAux pat repl t (pat.length - 1)
      else c :: pyReplaceAux pat repl t 0

/-- Python `str.replace(pat, repl)`: replace every non-overlapping occurrence,
scanning left to right.  (The program never calls it with an empty pattern;
that case is mapped to the identity.) -/
def pyReplace (cs pat repl : List Char) : List Char :=
  match pat with
  | [] => cs
  | _ :: _ => pyReplaceAux pat repl cs 0

/-- Python `str.upper()` (ASCII). -/
def pyUpper (cs : List Char) : List Char := cs.map Char.toUpper

/-- Python `str.lower()` (ASCII). -/
def pyLower (cs : List Char) : List Char := cs.map Char.toLower

/-- Python `str.endswith(post)`. -/
def endsWithSeq (cs post : List Char) : Bool :=
  startsWithSeq cs.reverse post.reverse

/-- Test `containsSeq hay needle`: does `needle` occur contiguously inside `hay`? -/
def containsSeq (needle : List Char) : List Char → Bool
  | [] => startsWithSeq [] needle
  | h :: t => startsWithSeq (h :: t) needle || containsSeq needle t

/-- Python's substring operator `needle in hay` on strings. -/
def containsStr (hay needle : String) : Bool :=
  containsSeq needle.data hay.data

/-! ## `parse_number` (lines 134–145 of the source)

```python
_value_num_pat = re.compile(r"(-?\d+(?:\.\d+)?)")

def parse_number(v):
    if v is None: return None
    s = str(v).strip().replace(",", "")
    mult = 1.0
    if s.upper().endswith("K"): mult, s = 1_000.0, s[:-1]
    if s.upper().endswith("M"): mult, s = 1_000_000.0, s[:-1]
    m = _value_num_pat.search(s)
    if not m: return None
    try: return float(m.group(1)) * mult
    except ValueError: return None
```

`re.search` with `(-?\d+(?:\.\d+)?)` returns the leftmost match: the first position
that is a digit, or a `-` immediately followed by a digit; the digit runs are greedy.
`float` of the matched text never raises, so the `except` branch is dead.
Floats are modelled as `Rat` (all matched literals are finite decimals). -/

/-- Numeric value of a digit character. -/
def digitVal (c : Char) : Nat := c.toNat - 48

/-- Value of a list of decimal digit characters. -/
def digitsToNat (ds : List Char) : Nat :=
  ds.foldl (fun n c => 10 * n + digitVal c) 0

/-- Greedy match of `\d+(?:\.\d+)?` at the head of `cs` (the head is a digit):
returns the integer digits and the (possibly empty) fraction digits. -/
def grabNum (cs : List Char) : List Char × List Char :=
  let intD := cs.takeWhile Char.isDigit
  let rest := cs.dropWhile Char.isDigit
  match rest with
  | '.' :: c :: t =>
      if c.isDigit then (intD, (c :: t).takeWhile Char.isDigit) else (intD, [])
  | _ => (intD, [])

/-- Leftmost match of `-?\d+(?:\.\d+)?`: `(negative sign present, integer digits,
fraction digits)`, or `none` when no digit occurs. -/
def scanNum : List Char → Option (Bool × List Char × List Char)
  | [] => none
  | c :: cs =>
      if c.isDigit then some (false, grabNum (c :: cs))
      else if c = '-' then
        match cs with
        | d :: _ => if d.isDigit then some (true, grabNum cs) else scanNum cs
        | [] => none
      else scanNum cs

/-! Exact rational arithmetic written through `mkRat` on numerators and denominators.
(The `Rat.add`/`Rat.sub`/`Rat.mul` of the library are `@[irreducible]`, which blocks
kernel evaluation; these definitions compute the same values.) -/

/-- Exact product of two rationals. -/
def ratMul (a b : Rat) : Rat := mkRat (a.num * b.num) (a.den * b.den)

/-- Exact difference of two rationals. -/
def ratSub (a b : Rat) : Rat := mkRat (a.num * b.den - b.num * a.den) (a.den * b.den)

/-- Rational value of a matched numeric literal `[-]intD[.fracD]`:
`±(intD.fracD) = ±(intD·10^k + fracD) / 10^k`. -/
def numValue (neg : Bool) (intD fracD : List Char) : Rat :=
  let den := 10 ^ fracD.length
  let n : Int := (digitsToNat intD * den + digitsToNat fracD : Nat)
  mkRat (if neg then -n else n) den

/-- Function `parse_number` from the source (floats as `Rat`). -/
def parse_number (v : Option String) : Option Rat :=
  match v with
  | none => none
  | some v0 =>
      let s0 := pyReplace (pyStrip v0.data) [','] []
      let p1 : Rat × List Char :=
        if endsWithSeq (pyUpper s0) ['K'] then (1000, s0.dropLast) else (1, s0)
      let p2 : Rat × List Char :=
        if endsWithSeq (pyUpper p1.2) ['M'] then (1000000, p1.2.dropLast) else (p1.1, p1.2)
      match scanNum p2.2 with
      | none => none
      | some (neg, intD, fracD) => some (ratMul (numValue neg intD fracD) p2.1)

/-! ## Time model

`datetime` values (always UTC in this program) are modelled by their calendar
components; comparison and `timedelta` arithmetic go through `DateTime.toSec`,
the position on the absolute-seconds timeline (days via the standard
civil-from-days conversion, so comparisons agree with `datetime` comparison). -/

/-- A `datetime` (UTC), by calendar components. -/
structure DateTime where
  year : Nat
  month : Nat
  day : Nat
  hour : Nat
  minute : Nat
  second : Nat
deriving DecidableEq

/-- Days since 1970-01-01 of a civil date (Hinnant's algorithm; divisions truncate
toward zero exactly as in its reference formulation). -/
def daysFromCivil (y m d : Int) : Int :=
  let y2 := y - (if m ≤ 2 then 1 else 0)
  let era := Int.tdiv (if 0 ≤ y2 then y2 else y2 - 399) 400
  let yoe := y2 - era * 400
  let mp := Int.tmod (m + 9) 12
  let doy := Int.tdiv (153 * mp + 2) 5 + d - 1
  let doe := yoe * 365 + Int.tdiv yoe 4 - Int.tdiv yoe 100 + doy
  era * 146097 + doe - 719468

/-- Seconds since 1970-01-01T00:00:00 (the timeline on which `datetime`
comparison and `timedelta` arithmetic take place). -/
def DateTime.toSec (t : DateTime) : Int :=
  daysFromCivil t.year t.month t.day * 86400 + t.hour * 3600 + t.minute * 60 + t.second

/-! ## The `MacroEvent` record and the raw provider row -/

/-- The `MacroEvent` dataclass of the source. -/
structure MacroEvent where
  id_key : String
  country : String
  name : String
  category : Option String
  actual : Option String
  forecast : Option String
  previous : Option String
  unit : Option String
  importance : Option Int
  release_time_utc : DateTime
  source : Option String
  source_url : Option String
deriving DecidableEq

/-- One raw calendar row as returned by the provider (`item` in the source).
A JSON key that is absent is `none`; a key that is present with a string value is
`some` of it.  (A key present with JSON `null` is conflated with an absent key;
the program distinguishes them only in the `item.get("Category", "Unknown Event")`
default, never exercised by the claims.) -/
structure RawItem where
  date1 : Option String      -- the "Date" key
  dateUTC : Option String    -- the "DateUTC" key
  date2 : Option String      -- the lowercase "date" key
  time1 : Option String      -- the "Time" key
  time2 : Option String      -- the lowercase "time" key
  country : Option String    -- "Country"
  event : Option String      -- "Event"
  category : Option String   -- "Category"
  actual : Option String     -- "Actual"
  forecast : Option String   -- "Forecast"
  previous : Option String   -- "Previous"
  unit : Option String       -- "Unit"
  importance : Option Int    -- "Importance"
  src : Option String        -- "Source"
  srcURL : Option String     -- "SourceURL"
deriving DecidableEq

/-- Function `_build_id` from the source:

```python
def _build_id(item):
    date_key = (item.get("Date") or item.get("DateUTC") or "").replace(" ", "T")
    name_key = item.get("Event") or item.get("Category") or "Unknown"
    country = item.get("Country") or "NA"
    return f"{country}|{name_key}|{date_key}"
``` -/
def build_id (item : RawItem) : String :=
  let date_key := ⟨pyReplace (pyOrS (pyOr item.date1 item.dateUTC) "").data [' '] ['T']⟩
  let name_key := pyOrS item.event (pyOrS item.category "Unknown")
  let country := pyOrS item.country "NA"
  country ++ "|" ++ name_key ++ "|" ++ date_key

/-! ## `_parse_te_datetime` (lines 119–126 of the source)

```python
def _parse_te_datetime(dt_str):
    s = dt_str.replace("T", " ").replace("Z", "")
    for fmt in ["%Y-%m-%d %H:%M:%S","%Y-%m-%d %H:%M","%Y-%m-%d","%m/%d/%Y %H:%M:%S","%m/%d/%Y %H:%M"]:
        try:
            return datetime.strptime(s, fmt).replace(tzinfo=timezone.utc)
        except ValueError:
            pass
    return datetime.now(timezone.utc)
```

CPython's `strptime` compiles each directive to a regex — `%Y ↦ \d{4}`,
`%m ↦ 1[0-2]|0[1-9]|[1-9]`, `%d ↦ 3[01]|[12]\d|0[1-9]|[1-9]`,
`%H ↦ 2[0-3]|[0-1]\d|\d`, `%M,%S ↦ [0-5]\d|\d`, whitespace `↦ \s+` — matched with
backtracking, anchored at the start and required to consume the whole string; the
`datetime` constructor then validates the day against the month length (and the
year ≥ 1), raising `ValueError` back into the loop.  The field parsers below return
their regex alternatives in order and `firstSome` backtracks through them. -/

/-- Try each alternative `(value, rest)` in order against the continuation. -/
def firstSome {α β : Type} (cands : List (α × List Char)) (k : α → List Char → Option β) : Option β :=
  match cands with
  | [] => none
  | (v, rest) :: t =>
      match k v rest with
      | some r => some r
      | none => firstSome t k

/-- Directive `%Y`: exactly four digits. -/
def pYear : List Char → List (Nat × List Char)
  | a :: b :: c :: d :: rest =>
      if a.isDigit && b.isDigit && c.isDigit && d.isDigit then
        [(digitVal a * 1000 + digitVal b * 100 + digitVal c * 10 + digitVal d, rest)]
      else []
  | _ => []

/-- Directive `%m`: `1[0-2]|0[1-9]|[1-9]` (two-digit alternatives first). -/
def pMonth : List Char → List (Nat × List Char)
  | a :: b :: rest =>
      (if a = '1' && ('0' = b || b = '1' || b = '2') then [(10 + digitVal b, rest)] else [])
      ++ (if a = '0' && b.isDigit && b ≠ '0' then [(digitVal b, rest)] else [])
      ++ (if a.isDigit && a ≠ '0' then [(digitVal a, b :: rest)] else [])
  | [a] => if a.isDigit && a ≠ '0' then [(digitVal a, [])] else []
  | [] => []

/-- Directive `%d`: `3[01]|[12]\d|0[1-9]|[1-9]` (two-digit alternatives first). -/
def pDay : List Char → List (Nat × List Char)
  | a :: b :: rest =>
      (if a = '3' && (b = '0' || b = '1') then [(30 + digitVal b, rest)] else [])
      ++ (if (a = '1' || a = '2') && b.isDigit then [(digitVal a * 10 + digitVal b, rest)] else [])
      ++ (if a = '0' && b.isDigit && b ≠ '0' then [(digitVal b, rest)] else [])
      ++ (if a.isDigit && a ≠ '0' then [(digitVal a, b :: rest)] else [])
  | [a] => if a.isDigit && a ≠ '0' then [(digitVal a, [])] else []
  | [] => []

/-- Directive `%H`: `2[0-3]|[0-1]\d|\d` (two-digit alternatives first). -/
def pHour : List Char → List (Nat × List Char)
  | a :: b :: rest =>
      (if a = '2' && (b = '0' || b = '1' || b = '2' || b = '3') then [(20 + digitVal b, rest)] else [])
      ++ (if (a = '0' || a = '1') && b.isDigit then [(digitVal a * 10 + digitVal b, rest)] else [])
      ++ (if a.isDigit then [(digitVal a, b :: rest)] else [])
  | [a] => if a.isDigit then [(digitVal a, [])] else []
  | [] => []

/-- Directives `%M` and `%S`: `[0-5]\d|\d` (the two-digit alternative first). -/
def pMinSec : List Char → List (Nat × List Char)
  | a :: b :: rest =>
      (if a.isDigit && digitVal a ≤ 5 && b.isDigit then [(digitVal a * 10 + digitVal b, rest)] else [])
      ++ (if a.isDigit then [(digitVal a, b :: rest)] else [])
  | [a] => if a.isDigit then [(digitVal a, [])] else []
  | [] => []

/-- A literal character of the format. -/
def pLit (c : Char) : List Char → Option (List Char)
  | x :: rest => if x = c then some rest else none
  | [] => none

/-- Whitespace in the format: `\s+` (greedy; the following token is never
whitespace, so plain greed is exact). -/
def pSpaces : List Char → Option (List Char)
  | c :: rest => if c.isWhitespace then some (rest.dropWhile Char.isWhitespace) else none
  | [] => none

/-- Leap-year test (Gregorian). -/
def isLeap (y : Nat) : Bool := y % 4 = 0 && (y % 100 ≠ 0 || y % 400 = 0)

/-- Length of a month, as validated by the `datetime` constructor. -/
def daysInMonth (y m : Nat) : Nat :=
  if m = 2 then (if isLeap y then 29 else 28)
  else if m = 4 || m = 6 || m = 9 || m = 11 then 30
  else 31

/-- The `datetime(y, m, d, h, mi, s)` constructor: `ValueError` (here `none`) when
the year is below `MINYEAR = 1` or the day exceeds the month length; the regexes
already confine the other fields to their ranges. -/
def mkValidDT (y m d h mi s : Nat) : Option DateTime :=
  if 1 ≤ y ∧ 1 ≤ d ∧ d ≤ daysInMonth y m then some ⟨y, m, d, h, mi, s⟩ else none

/-- Parser for `strptime` with format `"%Y-%m-%d %H:%M:%S"`. -/
def pYmdHMS (cs : List Char) : Option DateTime :=
  firstSome (pYear cs) fun y cs =>
  (pLit '-' cs).bind fun cs =>
  firstSome (pMonth cs) fun m cs =>
  (pLit '-' cs).bind fun cs =>
  firstSome (pDay cs) fun d cs =>
  (pSpaces cs).bind fun cs =>
  firstSome (pHour cs) fun h cs =>
  (pLit ':' cs).bind fun cs =>
  firstSome (pMinSec cs) fun mi cs =>
  (pLit ':' cs).bind fun cs =>
  firstSome (pMinSec cs) fun s cs =>
  if cs = [] then mkValidDT y m d h mi s else none

/-- Parser for `strptime` with format `"%Y-%m-%d %H:%M"`. -/
def pYmdHM (cs : List Char) : Option DateTime :=
  firstSome (pYear cs) fun y cs =>
  (pLit '-' cs).bind fun cs =>
  firstSome (pMonth cs) fun m cs =>
  (pLit '-' cs).bind fun cs =>
  firstSome (pDay cs) fun d cs =>
  (pSpaces cs).bind fun cs =>
  firstSome (pHour cs) fun h cs =>
  (pLit ':' cs).bind fun cs =>
  firstSome (pMinSec cs) fun mi cs =>
  if cs = [] then mkValidDT y m d h mi 0 else none

/-- Parser for `strptime` with format `"%Y-%m-%d"`. -/
def pYmd (cs : List Char) : Option DateTime :=
  firstSome (pYear cs) fun y cs =>
  (pLit '-' cs).bind fun cs =>
  firstSome (pMonth cs) fun m cs =>
  (pLit '-' cs).bind fun cs =>
  firstSome (pDay cs) fun d cs =>
  if cs = [] then mkValidDT y m d 0 0 0 else none

/-- Parser for `strptime` with format `"%m/%d/%Y %H:%M:%S"`. -/
def pMdYHMS (cs : List Char) : Option DateTime :=
  firstSome (pMonth cs) fun m cs =>
  (pLit '/' cs).bind fun cs =>
  firstSome (pDay cs) fun d cs =>
  (pLit '/' cs).bind fun cs =>
  firstSome (pYear cs) fun y cs =>
  (pSpaces cs).bind fun cs =>
  firstSome (pHour cs) fun h cs =>
  (pLit ':' cs).bind fun cs =>
  firstSome (pMinSec cs) fun mi cs =>
  (pLit ':' cs).bind fun cs =>
  firstSome (pMinSec cs) fun s cs =>
  if cs = [] then mkValidDT y m d h mi s else none

/-- Parser for `strptime` with format `"%m/%d/%Y %H:%M"`. -/
def pMdYHM (cs : List Char) : Option DateTime :=
  firstSome (pMonth cs) fun m cs =>
  (pLit '/' cs).bind fun cs =>
  firstSome (pDay cs) fun d cs =>
  (pLit '/' cs).bind fun cs =>
  firstSome (pYear cs) fun y cs =>
  (pSpaces cs).bind fun cs =>
  firstSome (pHour cs) fun h cs =>
  (pLit ':' cs).bind fun cs =>
  firstSome (pMinSec cs) fun mi cs =>
  if cs = [] then mkValidDT y m d h mi 0 else none

/-- Function `_parse_te_datetime`; `now` is the `datetime.now(timezone.utc)` fallback. -/
def parse_te_datetime (now : DateTime) (dt_str : String) : DateTime :=
  let cs := pyReplace (pyReplace dt_str.data ['T'] [' ']) ['Z'] []
  match pYmdHMS cs with
  | some t => t
  | none =>
  match pYmdHM cs with
  | some t => t
  | none =>
  match pYmd cs with
  | some t => t
  | none =>
  match pMdYHMS cs with
  | some t => t
  | none =>
  match pMdYHM cs with
  | some t => t
  | none => now

/-! ## `TradingEconomicsProvider.fetch_calendar` (lines 82–117 of the source)

The HTTP round trip is external; its pure content is (a) the query parameters
sent, and (b) the per-row normalization of the JSON rows into `MacroEvent`s. -/

/-- Zero-padded decimal rendering to (at least) `w` digits. -/
def padNum (w n : Nat) : String :=
  let s := toString n
  ⟨List.replicate (w - s.length) '0' ++ s.data⟩

/-- Rendering of `strftime("%Y-%m-%d")`. -/
def strftimeDate (t : DateTime) : String :=
  padNum 4 t.year ++ "-" ++ padNum 2 t.month ++ "-" ++ padNum 2 t.day

/-- The request parameters of the single `GET {BASE}/calendar` query.
(`stop` is the `"end"` request parameter; `end` is reserved in Lean.) -/
structure QueryParams where
  start : String
  stop : String
  country : String
  c : String
  importance : Option Int
deriving DecidableEq

/-- The `params` dict built by `fetch_calendar`: date-formatted `start`/`end`,
the country, the client token, and `importance=3` exactly when
`high_impact_only`. -/
def buildParams (start stop : DateTime) (country client : String)
    (high_impact_only : Bool) : QueryParams :=
  { start := strftimeDate start
    stop := strftimeDate stop
    country := country
    c := client
    importance := if high_impact_only then some 3 else none }

/-- The loop body of `fetch_calendar`: one `MacroEvent` from one raw row.
`now` feeds the `datetime.now` fallback of `_parse_te_datetime`; `country` is the
query's country argument (the fallback for a row without a `Country` field). -/
def normalizeRow (now : DateTime) (country : String) (item : RawItem) : MacroEvent :=
  let dt_str0 := pyOr item.date1 item.dateUTC
  let dt_str : String :=
    if pyTruthy dt_str0 then fstr dt_str0
    else
      let date_part := pyOr item.date1 item.date2
      let time_part := pyOrS (pyOr item.time1 item.time2) "00:00"
      fstr date_part ++ " " ++ time_part
  { id_key := build_id item
    country := pyOrS item.country country
    name := pyOrS item.event (item.category.getD "Unknown Event")
    category := item.category
    actual := item.actual
    forecast := item.forecast
    previous := item.previous
    unit := item.unit
    importance := item.importance
    release_time_utc := parse_te_datetime now dt_str
    source := item.src
    source_url := item.srcURL }

/-- The pure content of `fetch_calendar`: the query it issues and the events it
returns for the rows the provider answers with. -/
def fetch_calendar (now start stop : DateTime) (country client : String)
    (high_impact_only : Bool) (rows : List RawItem) : QueryParams × List MacroEvent :=
  (buildParams start stop country client high_impact_only,
   rows.map (normalizeRow now country))

/-! ## `interpret_event` (lines 147–225 of the source)

Modelled fields: `direction`, `score`, `tags`, `nuance`.  The `summary` and
`details` strings are message rendering (timezone formatting included) and are not
part of any claim. -/

/-- The analysis record returned by `interpret_event` (rendered text omitted). -/
structure Analysis where
  direction : String
  score : Int
  tags : List String
  nuance : List String
deriving DecidableEq

/-- The nested `hawkish_if_positive`: on a positive surprise set
`("hawkish", max score 1)`, on a negative one `("dovish", min score (-1))`,
otherwise leave the state unchanged. -/
def hawkish_if_positive (ds : String × Int) (s : Option Rat) : String × Int :=
  match s with
  | none => ds
  | some x =>
      if 0 < x then ("hawkish", max ds.2 1)
      else if x < 0 then ("dovish", min ds.2 (-1))
      else ds

/-- The nested `dovish_if_positive` (mirror image). -/
def dovish_if_positive (ds : String × Int) (s : Option Rat) : String × Int :=
  match s with
  | none => ds
  | some x =>
      if 0 < x then ("dovish", min ds.2 (-1))
      else if x < 0 then ("hawkish", max ds.2 1)
      else ds

/-- Value of `surprise = actual - forecast` when both parse, else `None`. -/
def surpriseOf (ev : MacroEvent) : Option Rat :=
  match parse_number ev.actual, parse_number ev.forecast with
  | some a, some f => some (ratSub a f)
  | _, _ => none

/-- Computation of `category = (ev.category or ev.name or "").lower()` (when `ev.name = ""` the
final `or ""` also yields `""`, so the two-armed fallback is exact). -/
def categoryOf (ev : MacroEvent) : String :=
  ⟨pyLower (pyOrS ev.category ev.name).data⟩

/-- Function `interpret_event`, restricted to its analysis fields.  The `elif` chain runs in
source order; the initial state is `("neutral", 0)`. -/
def interpret_event (ev : MacroEvent) : Analysis :=
  let actual := parse_number ev.actual
  let previous := parse_number ev.previous
  let surprise := surpriseOf ev
  let category := categoryOf ev
  let ds0 : String × Int := ("neutral", 0)
  let branch : String × (String × Int) × List String :=
    if ["cpi", "core cpi", "ppi", "inflation"].any (fun k => containsStr category k) then
      ("inflation",
       match surprise with
       | none => ds0
       | some _ => hawkish_if_positive ds0 surprise,
       match surprise with
       | none => []
       | some x => ["inflation surprise: " ++ (if 0 < x then "hotter" else "cooler")])
    else if containsStr category "gdp" || containsStr category "growth" then
      ("growth", hawkish_if_positive ds0 surprise, [])
    else if containsStr category "unemployment" || containsStr category "jobless" then
      ("labor", dovish_if_positive ds0 surprise, [])
    else if containsStr category "non-farm" || containsStr category "nonfarm"
        || containsStr category "payroll" then
      ("labor", hawkish_if_positive ds0 surprise, [])
    else if containsStr category "rate decision" || containsStr category "interest rate"
        || containsStr category "fomc" then
      ("rates", hawkish_if_positive ds0 surprise, [])
    else
      ("other", hawkish_if_positive ds0 surprise, [])
  let prevNuance : List String :=
    match actual, previous with
    | some a, some p =>
        if p < a then ["rising vs previous"]
        else if a < p then ["falling vs previous"]
        else ["unchanged vs previous"]
    | _, _ => []
  { direction := branch.2.1.1
    score := branch.2.1.2
    tags := [branch.1]
    nuance := branch.2.2 ++ prevNuance }

/-- Modelled from the spec: the classification rule table, rows in the order the
spec lists them, first matching row wins (positive-surprise column). -/
def specRuleDirection (category : String) : String :=
  if ["cpi", "core cpi", "ppi", "inflation"].any (fun k => containsStr category k) then
    "hawkish"
  else if containsStr category "gdp" || containsStr category "growth" then
    "hawkish"
  else if containsStr category "unemployment" || containsStr category "jobless" then
    "dovish"
  else if containsStr category "non-farm" || containsStr category "nonfarm"
      || containsStr category "payroll" then
    "hawkish"
  else if containsStr category "rate decision" || containsStr category "interest rate"
      || containsStr category "fomc" then
    "hawkish"
  else
    "hawkish"

/-! ## `poll_and_notify` (lines 229–258 of the source)

```python
def poll_and_notify(app):
    cfg = get_config()
    now = datetime.now(timezone.utc)
    start = now - timedelta(minutes=cfg["window_minutes"]); end = now + timedelta(minutes=1)
    try: events = provider.fetch_calendar(start, end, cfg["country"], cfg["high_impact_only"])
    except Exception: return
    processed = set(_load_json(PROCESSED_FILE, []))
    subs = _load_json(SUBSCRIBERS_FILE, [])
    if not subs: return
    for ev in events:
        if not ev.actual or str(ev.actual).strip() == "": continue
        if ev.release_time_utc > now + timedelta(minutes=1): continue
        if ev.id_key in processed: continue
        analysis = interpret_event(ev, cfg["local_tz"]); msg = ...
        try:
            for chat_id in subs: app.create_task(app.bot.send_message(chat_id=chat_id, text=msg))
            processed.add(ev.id_key)
        except Exception as e: print(...)
    _save_json(PROCESSED_FILE, list(processed))
```

External parts are parameters: the fetched `events` (a failed fetch is a cycle
that does nothing), the loaded subscriber list `subs`, and a failure oracle
`sendFail` for the `try` block — `none` means every `create_task` call returns,
`some j` means the `j`-th call raises (so the first `j` subscribers were already
messaged and `processed.add` is not reached).  A message is recorded as
`(chat_id, id_key)`; `notified` records the events whose `try` block completed. -/

/-- The inputs one poll cycle draws from its environment. -/
structure CycleInput where
  now : DateTime
  events : List MacroEvent
  subs : List Int
  sendFail : MacroEvent → Option Nat

/-- What one poll cycle produced: the messages scheduled, the events whose send
loop completed, and the processed-key set written back to disk. -/
structure CycleResult where
  messages : List (Int × String)
  notified : List MacroEvent
  processedOut : List String
deriving DecidableEq

/-- Gate `if not ev.actual or str(ev.actual).strip() == "": continue`. -/
def actualMissing : Option String → Bool
  | none => true
  | some s => s = "" || pyStrip s.data = []

/-- The `for ev in events` loop of `poll_and_notify`. -/
def pollLoop (sendFail : MacroEvent → Option Nat) (now : DateTime) (subs : List Int) :
    List String → List MacroEvent → CycleResult
  | processed, [] => ⟨[], [], processed⟩
  | processed, ev :: rest =>
      if actualMissing ev.actual then pollLoop sendFail now subs processed rest
      else if now.toSec + 60 < ev.release_time_utc.toSec then
        pollLoop sendFail now subs processed rest
      else if ev.id_key ∈ processed then pollLoop sendFail now subs processed rest
      else
        match sendFail ev with
        | none =>
            let r := pollLoop sendFail now subs (ev.id_key :: processed) rest
            ⟨subs.map (fun c => (c, ev.id_key)) ++ r.messages, ev :: r.notified, r.processedOut⟩
        | some j =>
            let r := pollLoop sendFail now subs processed rest
            ⟨(subs.take j).map (fun c => (c, ev.id_key)) ++ r.messages, r.notified, r.processedOut⟩

/-- One run of `poll_and_notify`, as a function of the persisted processed-key
set; with no subscribers it returns before the loop and the persisted set keeps
its previous value. -/
def poll_and_notify (inp : CycleInput) (processed : List String) : CycleResult :=
  if inp.subs = [] then ⟨[], [], processed⟩
  else pollLoop inp.sendFail inp.now inp.subs processed inp.events

/-- The dedup keys of the events a cycle notified. -/
def notifiedKeys (r : CycleResult) : List String :=
  r.notified.map MacroEvent.id_key

/-- Keys notified across a sequence of poll cycles, threading the persisted
processed-key set from each cycle into the next. -/
def allNotifiedKeys (processed : List String) : List CycleInput → List String
  | [] => []
  | inp :: rest =>
      let r := poll_and_notify inp processed
      notifiedKeys r ++ allNotifiedKeys r.processedOut rest

/-! ## `subscribe` / `unsubscribe` (lines 289–307 of the source)

Only the stored-list update is modelled (the confirmation messages are
transport).  Python's `list.remove` deletes the first occurrence, which is
`List.erase`. -/

/-- The subscriber-list update of `/subscribe`. -/
def subscribe (subs : List Int) (chat_id : Int) : List Int :=
  if chat_id ∈ subs then subs else subs ++ [chat_id]

/-- The subscriber-list update of `/unsubscribe`. -/
def unsubscribe (subs : List Int) (chat_id : Int) : List Int :=
  if chat_id ∈ subs then subs.erase chat_id else subs

/-! ## `parse_config_args` (lines 357–377 of the source) -/

/-- The update dict produced by `parse_config_args` (each key optional). -/
structure ConfigOut where
  country : Option String
  high_impact_only : Option Bool
  poll_every_seconds : Option Int
  window_minutes : Option Int
  local_tz : Option String
deriving DecidableEq

/-- Python's `int(v)`: an optional sign followed by one or more decimal digits.
The program always passes an already-stripped string, so the constructor's own
whitespace stripping is a no-op here.  (CPython additionally accepts single
underscores between digits and non-ASCII digits; the claims do not turn on those,
and every such input still yields an integer, never an exception.) -/
def pyInt (v : String) : Option Int :=
  match v.data with
  | '-' :: ds => if ds ≠ [] ∧ ds.all Char.isDigit then some (-(digitsToNat ds : Int)) else none
  | '+' :: ds => if ds ≠ [] ∧ ds.all Char.isDigit then some (digitsToNat ds : Int) else none
  | ds => if ds ≠ [] ∧ ds.all Char.isDigit then some (digitsToNat ds : Int) else none

/-- Python `a.split("=", 1)`: the part before the first `=` and everything after it. -/
def splitOnceEq (a : String) : String × String :=
  let pre := a.data.takeWhile (fun c => c ≠ '=')
  let post := (a.data.dropWhile (fun c => c ≠ '=')).drop 1
  (⟨pre⟩, ⟨post⟩)

/-- One iteration of the `for a in args` loop of `parse_config_args`. -/
def applyArg (out : ConfigOut) (a : String) : ConfigOut :=
  if ¬ a.data.contains '=' then out
  else
    let kv := splitOnceEq a
    let k : String := ⟨pyLower (pyStrip kv.1.data)⟩
    let v : String := ⟨pyStrip kv.2.data⟩
    if k = "country" then { out with country := some v }
    else if k = "impact" then
      { out with high_impact_only := some ((⟨pyLower v.data⟩ : String) = "high") }
    else if k = "poll" then
      match pyInt v with
      | some n => { out with poll_every_seconds := some (max 15 n) }
      | none => out
    else if k = "window" then
      match pyInt v with
      | some n => { out with window_minutes := some (max 1 n) }
      | none => out
    else if k = "tz" then { out with local_tz := some v }
    else out

/-- Function `parse_config_args`. -/
def parse_config_args (args : List String) : ConfigOut :=
  args.foldl applyArg ⟨none, none, none, none, none⟩

/-! ## Concrete fixtures used by witnesses and counterexamples -/

/-- Reference instant 2024-01-05 12:00:00 UTC. -/
def nowW : DateTime := ⟨2024, 1, 5, 12, 0, 0⟩

/-- An eligible event, released exactly at `nowW`. -/
def evW1 : MacroEvent :=
  { id_key := "US|CPI|2024-01-05T13:30:00", country := "United States", name := "CPI"
    category := some "CPI", actual := some "3.2", forecast := some "3.0"
    previous := some "3.1", unit := none, importance := some 3
    release_time_utc := nowW, source := none, source_url := none }

/-- A second eligible event with a different dedup key. -/
def evW2 : MacroEvent :=
  { evW1 with id_key := "US|GDP|2024-01-05T13:30:00", name := "GDP", category := some "GDP" }

/-- A cycle in which every send succeeds. -/
def inpW1 : CycleInput := ⟨nowW, [evW1], [7], fun _ => none⟩

/-- Two successive cycles observing the same event. -/
def inpsW : List CycleInput := [inpW1, inpW1]

/-- A cycle in which sending `evW1` raises on the first `create_task` while
`evW2` goes through. -/
def inpW8 : CycleInput :=
  ⟨nowW, [evW1, evW2], [7], fun ev => if ev.id_key = evW1.id_key then some 0 else none⟩

/-- An event whose release time is 30 seconds in the future of `nowW`. -/
def evFut : MacroEvent :=
  { evW1 with
    id_key := "US|PPI|2024-01-05T12:00:30"
    name := "PPI"
    category := some "PPI"
    release_time_utc := ⟨2024, 1, 5, 12, 0, 30⟩ }

/-- A poll at `nowW` that sees only `evFut`. -/
def inpFut : CycleInput := ⟨nowW, [evFut], [7], fun _ => none⟩

/-- An unemployment event with a positive surprise (4.2 against 4.0). -/
def evDov : MacroEvent :=
  { id_key := "US|UR|2024-01-05T13:30:00", country := "United States"
    name := "Unemployment Rate", category := some "Unemployment Rate"
    actual := some "4.2", forecast := some "4.0", previous := some "4.1"
    unit := none, importance := some 3, release_time_utc := ⟨2024, 1, 5, 13, 30, 0⟩
    source := none, source_url := none }

/-- A raw provider row whose `Date` carries both a date and a time. -/
def itemC4 : RawItem :=
  { date1 := some "2024-01-05 13:30:00", dateUTC := none, date2 := none
    time1 := none, time2 := none, country := some "United States"
    event := some "CPI", category := some "CPI", actual := some "3.2"
    forecast := some "3.0", previous := some "3.1", unit := none
    importance := some 3, src := none, srcURL := none }

/-- Two `start` instants on the same calendar day, seven hours apart. -/
def s1C6 : DateTime := ⟨2024, 1, 5, 10, 0, 0⟩

/-- See `s1C6`. -/
def s2C6 : DateTime := ⟨2024, 1, 5, 3, 0, 0⟩

/-- An `end` instant later the same day. -/
def eC6 : DateTime := ⟨2024, 1, 5, 23, 59, 0⟩

/-- Equality of the civil dates of two instants. -/
def sameCivilDate (s t : DateTime) : Prop :=
  s.year = t.year ∧ s.month = t.month ∧ s.day = t.day

/-- A raw provider row exercising the key builder's fallbacks: no `Country`, no
`Event` (only a `Category`), and the timestamp only under `DateUTC`. -/
def itemC4b : RawItem :=
  { date1 := none, dateUTC := some "2024-01-05 13:30:00", date2 := none
    time1 := none, time2 := none, country := none
    event := none, category := some "CPI", actual := some "3.2"
    forecast := some "3.0", previous := none, unit := none
    importance := some 3, src := none, srcURL := none }

/-- Fields of a character list split at every occurrence of `sep`
(`n` separators yield `n + 1` fields). -/
def splitChar (sep : Char) : List Char → List (List Char)
  | [] => [[]]
  | c :: t =>
      let r := splitChar sep t
      if c = sep then [] :: r
      else
        match r with
        | [] => [[c]]
        | h :: t2 => (c :: h) :: t2

/-- Modelled from the spec (amended claim): the key's first field — the row's
country, defaulting to `NA` when the row has no non-empty country. -/
def specKeyCountry (item : RawItem) : String :=
  match item.country with
  | some c => if c = "" then "NA" else c
  | none => "NA"

/-- Modelled from the spec (amended claim): the key's second field — the event
name, falling back to the category and then to `Unknown`. -/
def specKeyName (item : RawItem) : String :=
  match item.event with
  | some e =>
      if e = "" then
        match item.category with
        | some c => if c = "" then "Unknown" else c
        | none => "Unknown"
      else e
  | none =>
      match item.category with
      | some c => if c = "" then "Unknown" else c
      | none => "Unknown"

/-- Modelled from the spec (amended claim): the key's third field — the raw
`Date` timestamp, falling back to `DateUTC` and then to the empty string, with
every space replaced by `T`. -/
def specKeyDate (item : RawItem) : String :=
  let raw : String :=
    match item.date1 with
    | some d =>
        if d = "" then
          match item.dateUTC with
          | some u => if u = "" then "" else u
          | none => ""
        else d
    | none =>
        match item.dateUTC with
        | some u => if u = "" then "" else u
        | none => ""
  ⟨pyReplace raw.data [' '] ['T']⟩

/-! ## C5 — `parse_number` on loosely formatted numeric strings -/

/-- C5: `parse_number` converts loosely formatted numeric strings to exact
magnitudes: a trailing `K` multiplies by 1000 (`"3.2K" ↦ 3200`), a trailing `M`
by 1000000 (`"2M" ↦ 2000000`), a percent sign and other trailing text are
ignored (`"-1.5%" ↦ -1.5`, `"0.25 pp" ↦ 0.25`), and thousands-separator commas
are removed before parsing (`"1,234.5" ↦ 1234.5`). -/
theorem parse_number_loose_formats :
    parse_number (some "3.2K") = some 3200
    ∧ parse_number (some "-1.5%") = some (mkRat (-3) 2)
    ∧ parse_number (some "2M") = some 2000000
    ∧ parse_number (some "3.2k") = some 3200
    ∧ parse_number (some "0.25 pp") = some (mkRat 1 4)
    ∧ parse_number (some "1,234.5") = some (mkRat 2469 2)
    ∧ parse_number (some " -1.5% ") = some (mkRat (-3) 2)
    ∧ parse_number none = none := by
  decide

/-! ## C9 — the subscriber list stays duplicate-free -/

/-- C9: starting from a duplicate-free stored subscriber list, `subscribe`
appends the chat id only when absent and leaves the list unchanged otherwise,
`unsubscribe` removes a present id and leaves the list unchanged otherwise, and
both operations preserve duplicate-freeness and are idempotent. -/
theorem subscriber_list_nodup_idempotent (subs : List Int) (c : Int)
    (h : subs.Nodup) :
    (subscribe subs c).Nodup
    ∧ subscribe (subscribe subs c) c = subscribe subs c
    ∧ (unsubscribe subs c).Nodup
    ∧ unsubscribe (unsubscribe subs c) c = unsubscribe subs c
    ∧ (c ∉ subs → subscribe subs c = subs ++ [c])
    ∧ (c ∈ subs → subscribe subs c = subs)
    ∧ (c ∉ subs → unsubscribe subs c = subs) := by
  refine ⟨?_, ?_, ?_, ?_, ?_, ?_, ?_⟩
  · by_cases hc : c ∈ subs
    · simpa [subscribe, hc] using h
    · simp [subscribe, hc, List.nodup_append, h]
  · by_cases hc : c ∈ subs
    · simp [subscribe, hc]
    · simp [subscribe, hc]
  · by_cases hc : c ∈ subs
    · simpa [unsubscribe, hc] using h.erase c
    · simpa [unsubscribe, hc] using h
  · by_cases hc : c ∈ subs
    · have : c ∉ subs.erase c := fun hmem => ((h.mem_erase_iff).mp hmem).1 rfl
      simp [unsubscribe, hc, this]
    · simp [unsubscribe, hc]
  · intro hc; simp [subscribe, hc]
  · intro hc; simp [subscribe, hc]
  · intro hc; simp [unsubscribe, hc]

/-- Witness for C9 at `subs = [1, 2]`, `c = 2`. -/
theorem subscriber_list_nodup_idempotent_witness :
    (subscribe [1, 2] 2).Nodup ∧ subscribe [1, 2] 2 = [1, 2]
    ∧ unsubscribe [1, 2] 2 = [1] := by
  have h := subscriber_list_nodup_idempotent [1, 2] 2 (by decide)
  exact ⟨h.1, h.2.2.2.2.2.1 (by decide), by decide⟩

/-! ## C10 — `/config` clamps the polling interval and window -/

/-- One `applyArg` step preserves "every produced `poll_every_seconds` is ≥ 15
and every produced `window_minutes` is ≥ 1". -/
theorem applyArg_bounds (out : ConfigOut) (a : String)
    (hp : ∀ p, out.poll_every_seconds = some p → 15 ≤ p)
    (hw : ∀ w, out.window_minutes = some w → 1 ≤ w) :
    (∀ p, (applyArg out a).poll_every_seconds = some p → 15 ≤ p)
    ∧ (∀ w, (applyArg out a).window_minutes = some w → 1 ≤ w) := by
  simp only [applyArg]
  split_ifs
  all_goals
    first
    | exact ⟨hp, hw⟩
    | (rcases hv : pyInt ⟨pyStrip (splitOnceEq a).2.data⟩ with _ | n <;>
        simp only [hv] <;>
        first
        | exact ⟨hp, hw⟩
        | exact ⟨fun p hsome => (Option.some_inj.mp hsome) ▸ le_max_left 15 n, hw⟩
        | exact ⟨hp, fun w hsome => (Option.some_inj.mp hsome) ▸ le_max_left 1 n⟩)

/-- Folding `applyArg` preserves the clamping bounds. -/
theorem foldl_applyArg_bounds (args : List String) :
    ∀ out : ConfigOut,
      (∀ p, out.poll_every_seconds = some p → 15 ≤ p) →
      (∀ w, out.window_minutes = some w → 1 ≤ w) →
      (∀ p, (args.foldl applyArg out).poll_every_seconds = some p → 15 ≤ p)
      ∧ (∀ w, (args.foldl applyArg out).window_minutes = some w → 1 ≤ w) := by
  induction args with
  | nil => intro out hp hw; exact ⟨hp, hw⟩
  | cons a t ih =>
      intro out hp hw
      have h := applyArg_bounds out a hp hw
      exact ih (applyArg out a) h.1 h.2

/-- A `takeWhile` passes over a prefix it wholly accepts. -/
theorem takeWhile_append_all {p : Char → Bool} :
    ∀ (l₁ l₂ : List Char), (∀ c ∈ l₁, p c = true) →
      List.takeWhile p (l₁ ++ l₂) = l₁ ++ List.takeWhile p l₂ := by
  intro l₁
  induction l₁ with
  | nil => intro l₂ _; rfl
  | cons h t ih =>
      intro l₂ hall
      have hh : p h = true := hall h (List.mem_cons_self h t)
      simp only [List.cons_append, List.takeWhile_cons, hh, if_true]
      rw [ih l₂ (fun c hc => hall c (List.mem_cons_of_mem h hc))]

/-- A `dropWhile` drops a prefix it wholly accepts. -/
theorem dropWhile_append_all {p : Char → Bool} :
    ∀ (l₁ l₂ : List Char), (∀ c ∈ l₁, p c = true) →
      List.dropWhile p (l₁ ++ l₂) = List.dropWhile p l₂ := by
  intro l₁
  induction l₁ with
  | nil => intro l₂ _; rfl
  | cons h t ih =>
      intro l₂ hall
      have hh : p h = true := hall h (List.mem_cons_self h t)
      simp only [List.cons_append, List.dropWhile_cons, hh, if_true]
      exact ih l₂ (fun c hc => hall c (List.mem_cons_of_mem h hc))

/-- Python `a.split("=", 1)` on `k ++ "=" ++ v` when `k` holds no `=`. -/
theorem splitOnceEq_keyval (k v : String) (hk : ∀ c ∈ k.data, c ≠ '=') :
    splitOnceEq (k ++ "=" ++ v) = (k, v) := by
  have hdata : (k ++ "=" ++ v).data = k.data ++ ('=' :: v.data) := by
    simp [String.data_append]
  have hall : ∀ c ∈ k.data, (fun c => decide (c ≠ '=')) c = true := by
    intro c hc
    simpa using hk c hc
  unfold splitOnceEq
  rw [hdata, takeWhile_append_all _ _ hall, dropWhile_append_all _ _ hall]
  simp [List.takeWhile_cons, List.dropWhile_cons]

/-- C10: `parse_config_args` clamps runtime updates — every
`poll_every_seconds` it produces is at least 15 and every `window_minutes` at
least 1; an argument with no `=` is ignored, and a `poll=`/`window=` argument
whose value is not an integer is ignored rather than raising. -/
theorem parse_config_args_clamps :
    (∀ (args : List String) (p : Int),
        (parse_config_args args).poll_every_seconds = some p → 15 ≤ p)
    ∧ (∀ (args : List String) (w : Int),
        (parse_config_args args).window_minutes = some w → 1 ≤ w)
    ∧ (∀ (out : ConfigOut) (a : String),
        a.data.contains '=' = false → applyArg out a = out)
    ∧ (∀ (out : ConfigOut) (v : String),
        pyInt ⟨pyStrip v.data⟩ = none → applyArg out ("poll" ++ "=" ++ v) = out)
    ∧ (∀ (out : ConfigOut) (v : String),
        pyInt ⟨pyStrip v.data⟩ = none → applyArg out ("window" ++ "=" ++ v) = out) := by
  refine ⟨?_, ?_, ?_, ?_, ?_⟩
  · intro args p h
    exact (foldl_applyArg_bounds args ⟨none, none, none, none, none⟩
      (by intro q hq; cases hq) (by intro q hq; cases hq)).1 p h
  · intro args w h
    exact (foldl_applyArg_bounds args ⟨none, none, none, none, none⟩
      (by intro q hq; cases hq) (by intro q hq; cases hq)).2 w h
  · intro out a h
    have hc : ¬ (a.data.contains '=' = true) := by
      intro hct
      rw [h] at hct
      exact Bool.false_ne_true hct
    simp only [applyArg, if_pos hc]
  · intro out v h
    have hs := splitOnceEq_keyval "poll" v (by decide)
    simp only [applyArg, hs]
    have h1 : ("poll" ++ "=" ++ v).data.contains '=' = true := by
      simp [String.data_append]
    rw [if_neg (by simp [h1])]
    have hk : (⟨pyLower (pyStrip ("poll" : String).data)⟩ : String) = "poll" := by decide
    rw [hk]
    rw [if_neg (by decide), if_neg (by decide), if_pos rfl, h]
  · intro out v h
    have hs := splitOnceEq_keyval "window" v (by decide)
    simp only [applyArg, hs]
    have h1 : ("window" ++ "=" ++ v).data.contains '=' = true := by
      simp [String.data_append]
    rw [if_neg (by simp [h1])]
    have hk : (⟨pyLower (pyStrip ("window" : String).data)⟩ : String) = "window" := by decide
    rw [hk]
    rw [if_neg (by decide), if_neg (by decide), if_neg (by decide), if_pos rfl, h]

/-- Witness for C10: `poll=3` clamps to 15, `window=0` clamps to 1, and `junk`
(no `=`) and `poll=abc` (non-integer) are ignored. -/
theorem parse_config_args_clamps_witness :
    ((parse_config_args ["poll=3", "window=0"]).poll_every_seconds = some 15
      ∧ (15 : Int) ≤ 15)
    ∧ ((parse_config_args ["poll=3", "window=0"]).window_minutes = some 1
      ∧ (1 : Int) ≤ 1)
    ∧ applyArg ⟨none, none, none, none, none⟩ "junk" = ⟨none, none, none, none, none⟩
    ∧ applyArg ⟨none, none, none, none, none⟩ ("poll" ++ "=" ++ "abc")
        = ⟨none, none, none, none, none⟩ := by
  refine ⟨⟨by decide, ?_⟩, ⟨by decide, ?_⟩, ?_, ?_⟩
  · exact parse_config_args_clamps.1 ["poll=3", "window=0"] 15 (by decide)
  · exact parse_config_args_clamps.2.1 ["poll=3", "window=0"] 1 (by decide)
  · exact parse_config_args_clamps.2.2.1 ⟨none, none, none, none, none⟩ "junk" (by decide)
  · exact parse_config_args_clamps.2.2.2.1 ⟨none, none, none, none, none⟩ "abc" (by decide)

/-! ## C4 — the shape of the dedup key -/

/-- An arbitrary fallback instant for `_parse_te_datetime` in fixtures. -/
def now0 : DateTime := ⟨2030, 6, 1, 0, 0, 0⟩

/-- Counterexample to C4: for the row `itemC4` (whose `Date` is
`"2024-01-05 13:30:00"`, so the release *date* in ISO form is `2024-01-05`),
the key's third field is the full timestamp `2024-01-05T13:30:00`, not the ISO
date: the key is not `country|event-name|ISO-date`. -/
theorem build_id_not_iso_date :
    build_id itemC4 = "United States|CPI|2024-01-05T13:30:00"
    ∧ build_id itemC4 ≠ "United States|CPI|2024-01-05"
    ∧ (normalizeRow now0 "United States" itemC4).release_time_utc
        = ⟨2024, 1, 5, 13, 30, 0⟩ := by
  decide

/-- A separator-free prefix becomes the head of the first field. -/
theorem splitChar_append_sep (sep : Char) :
    ∀ (l rest : List Char), (∀ x ∈ l, x ≠ sep) →
      splitChar sep (l ++ sep :: rest) = l :: splitChar sep rest := by
  intro l
  induction l with
  | nil => intro rest _; simp [splitChar]
  | cons c t ih =>
      intro rest hl
      have hc : c ≠ sep := hl c (List.mem_cons_self _ _)
      simp only [List.cons_append, splitChar, if_neg hc, List.append_eq]
      rw [ih rest (fun x hx => hl x (List.mem_cons_of_mem _ hx))]

/-- A separator-free list is a single field. -/
theorem splitChar_no_sep (sep : Char) :
    ∀ l : List Char, (∀ x ∈ l, x ≠ sep) → splitChar sep l = [l] := by
  intro l
  induction l with
  | nil => intro _; rfl
  | cons c t ih =>
      intro hl
      have hc : c ≠ sep := hl c (List.mem_cons_self _ _)
      simp only [splitChar, if_neg hc]
      rw [ih (fun x hx => hl x (List.mem_cons_of_mem _ hx))]

/-- C4 (amended): for *every* fetched row — fallbacks included — the dedup key
is the three fields country (defaulting to `NA`), event name (falling back to
category, then `Unknown`), and the raw `Date`/`DateUTC` release timestamp with
spaces replaced by `T` (a full ISO-8601 date-*time* when the provider supplies
date and time, not a bare ISO date), joined by `|`; whenever the three fields
themselves carry no `|`, splitting the key at `|` recovers exactly them. -/
theorem build_id_three_fields (item : RawItem) :
    build_id item
      = specKeyCountry item ++ "|" ++ specKeyName item ++ "|" ++ specKeyDate item
    ∧ ((∀ x ∈ (specKeyCountry item).data, x ≠ '|') →
       (∀ x ∈ (specKeyName item).data, x ≠ '|') →
       (∀ x ∈ (specKeyDate item).data, x ≠ '|') →
       splitChar '|' (build_id item).data
         = [(specKeyCountry item).data, (specKeyName item).data,
            (specKeyDate item).data]) := by
  have h1 : pyOrS item.country "NA" = specKeyCountry item := by
    unfold pyOrS specKeyCountry
    rcases item.country with _ | c <;> rfl
  have h2 : pyOrS item.event (pyOrS item.category "Unknown") = specKeyName item := by
    unfold pyOrS specKeyName
    rcases item.event with _ | e <;> rcases item.category with _ | c <;> rfl
  have h3 : (⟨pyReplace (pyOrS (pyOr item.date1 item.dateUTC) "").data [' '] ['T']⟩ : String)
      = specKeyDate item := by
    unfold pyOr pyOrS pyTruthy specKeyDate
    rcases item.date1 with _ | d <;> rcases item.dateUTC with _ | u
    · rfl
    · by_cases hu : u = "" <;> simp [hu]
    · by_cases hd : d = "" <;> simp [hd]
    · by_cases hd : d = "" <;> by_cases hu : u = "" <;> simp [hd, hu]
  have heq : build_id item
      = specKeyCountry item ++ "|" ++ specKeyName item ++ "|" ++ specKeyDate item := by
    unfold build_id
    rw [h1, h2, h3]
  refine ⟨heq, fun hc hn hd => ?_⟩
  have hdata : (build_id item).data
      = (specKeyCountry item).data
          ++ '|' :: ((specKeyName item).data ++ '|' :: (specKeyDate item).data) := by
    rw [heq]
    simp [String.data_append]
  rw [hdata, splitChar_append_sep '|' _ _ hc, splitChar_append_sep '|' _ _ hn,
    splitChar_no_sep '|' _ hd]

/-- Witness for C4 (amended) at the fully populated row `itemC4` and at the
fallback row `itemC4b` (no country, no event, `DateUTC` only). -/
theorem build_id_three_fields_witness :
    (build_id itemC4
        = specKeyCountry itemC4 ++ "|" ++ specKeyName itemC4 ++ "|" ++ specKeyDate itemC4
      ∧ splitChar '|' (build_id itemC4).data
          = [(specKeyCountry itemC4).data, (specKeyName itemC4).data,
             (specKeyDate itemC4).data])
    ∧ (build_id itemC4b
        = specKeyCountry itemC4b ++ "|" ++ specKeyName itemC4b ++ "|" ++ specKeyDate itemC4b
      ∧ splitChar '|' (build_id itemC4b).data
          = [(specKeyCountry itemC4b).data, (specKeyName itemC4b).data,
             (specKeyDate itemC4b).data]) := by
  refine ⟨⟨(build_id_three_fields itemC4).1,
      (build_id_three_fields itemC4).2 ?_ ?_ ?_⟩,
    ⟨(build_id_three_fields itemC4b).1,
      (build_id_three_fields itemC4b).2 ?_ ?_ ?_⟩⟩ <;> decide

/-! ## C6 — the calendar query and per-row normalization -/

/-- Counterexample to C6: `fetch_calendar` formats `start` and `end` with
`strftime("%Y-%m-%d")`, so two windows whose `start` instants differ by seven
hours on the same day issue the *identical* query — the query carries no
time-of-day information and is not restricted to the half-open window
`[start, end)`, only to its calendar dates. -/
theorem fetch_calendar_query_date_only :
    buildParams s1C6 eC6 "United States" "guest:guest" true
      = buildParams s2C6 eC6 "United States" "guest:guest" true
    ∧ s1C6 ≠ s2C6 ∧ s1C6.toSec ≠ s2C6.toSec := by
  decide

/-- C6 (amended): `fetch_calendar` issues a single query carrying the calendar
dates of `start` and `end` (day granularity), the country, and an
`importance=3` filter exactly when `high_impact_only` is true, and returns one
normalized `MacroEvent` per row the provider answers with. -/
theorem fetch_calendar_normalizes (now start stop : DateTime)
    (country client : String) (high_impact_only : Bool) (rows : List RawItem) :
    ((fetch_calendar now start stop country client high_impact_only rows).1.importance
        = some 3 ↔ high_impact_only = true)
    ∧ (fetch_calendar now start stop country client high_impact_only rows).1
        = buildParams start stop country client high_impact_only
    ∧ (fetch_calendar now start stop country client high_impact_only rows).2
        = rows.map (normalizeRow now country)
    ∧ (fetch_calendar now start stop country client high_impact_only rows).2.length
        = rows.length
    ∧ (∀ start2 stop2 : DateTime, sameCivilDate start start2 → sameCivilDate stop stop2 →
        buildParams start stop country client high_impact_only
          = buildParams start2 stop2 country client high_impact_only) := by
  refine ⟨?_, rfl, rfl, by simp [fetch_calendar], ?_⟩
  · cases high_impact_only <;> simp [fetch_calendar, buildParams]
  · intro start2 stop2 h1 h2
    unfold buildParams strftimeDate
    rw [h1.1, h1.2.1, h1.2.2, h2.1, h2.2.1, h2.2.2]

/-- Witness for C6 (amended): the importance filter and the day-granularity of
the query at concrete instants. -/
theorem fetch_calendar_normalizes_witness :
    ((fetch_calendar now0 s1C6 eC6 "United States" "guest:guest" true []).1.importance
        = some 3 ↔ (true : Bool) = true)
    ∧ buildParams s1C6 eC6 "United States" "guest:guest" true
        = buildParams s2C6 eC6 "United States" "guest:guest" true := by
  have h := fetch_calendar_normalizes now0 s1C6 eC6 "United States" "guest:guest" true []
  exact ⟨h.1, h.2.2.2.2 s2C6 eC6 ⟨rfl, rfl, rfl⟩ ⟨rfl, rfl, rfl⟩⟩

/-! ## C3 — positive surprises follow the rule table -/

/-- Difference `ratSub` is positive exactly when the subtrahend is smaller. -/
theorem ratSub_pos {a b : Rat} : 0 < ratSub a b ↔ b < a := by
  unfold ratSub
  rw [Rat.mkRat_eq_divInt, Rat.divInt_eq_div]
  have hden : (0 : ℚ) < (((a.den * b.den : ℕ) : ℤ) : ℚ) := by
    exact_mod_cast Nat.mul_pos a.den_pos b.den_pos
  rw [lt_div_iff₀ hden, zero_mul, Int.cast_pos, sub_pos, ← Rat.lt_def]

/-- C3: whenever both `actual` and `forecast` parse and the surprise is
positive (`actual > forecast`), the direction `interpret_event` reports is the
one the spec's rule table assigns to the event's (lowercased) category —
`dovish` exactly when the first matching row is the unemployment/jobless row,
`hawkish` for every other row including the default. -/
theorem interpret_event_rule_table (ev : MacroEvent) (a f : Rat)
    (ha : parse_number ev.actual = some a) (hf : parse_number ev.forecast = some f)
    (hlt : f < a) :
    (interpret_event ev).direction = specRuleDirection (categoryOf ev)
    ∧ ((interpret_event ev).direction = "dovish" ↔
        ((containsStr (categoryOf ev) "unemployment" || containsStr (categoryOf ev) "jobless")
            = true
          ∧ ["cpi", "core cpi", "ppi", "inflation"].any
              (fun k => containsStr (categoryOf ev) k) = false
          ∧ (containsStr (categoryOf ev) "gdp" || containsStr (categoryOf ev) "growth")
              = false)) := by
  have hs : surpriseOf ev = some (ratSub a f) := by
    simp [surpriseOf, ha, hf]
  have hpos : 0 < ratSub a f := ratSub_pos.mpr hlt
  have hdir : (interpret_event ev).direction = specRuleDirection (categoryOf ev) := by
    simp only [interpret_event, specRuleDirection, hs, hawkish_if_positive,
      dovish_if_positive, if_pos hpos]
    split_ifs <;> simp [hawkish_if_positive, dovish_if_positive, if_pos hpos]
  refine ⟨hdir, ?_⟩
  rw [hdir]
  unfold specRuleDirection
  split_ifs with h1 h2 h3 h4 h5 <;> simp_all
  · intro _ hcpi hcore hppi hinfl _
    rcases h1 with h | h | h | h <;> simp_all
  · intro _ hgdp
    rcases h2 with h | h
    · simp_all
    · exact h

/-- Witness for C3 at `evDov` (unemployment, 4.2 released against 4.0
forecast): the reported direction matches the rule table (and is dovish). -/
theorem interpret_event_rule_table_witness :
    (interpret_event evDov).direction = specRuleDirection (categoryOf evDov)
    ∧ specRuleDirection (categoryOf evDov) = "dovish" := by
  refine ⟨?_, by decide⟩
  exact (interpret_event_rule_table evDov (mkRat 21 5) (mkRat 4 1)
    (by decide) (by decide) (by decide)).1

/-! ## Loop invariants of `poll_and_notify` -/

/-- The in-memory processed set only grows during a cycle. -/
theorem pollLoop_mono (sf : MacroEvent → Option Nat) (now : DateTime) (subs : List Int) :
    ∀ (evs : List MacroEvent) (processed : List String) (x : String),
      x ∈ processed → x ∈ (pollLoop sf now subs processed evs).processedOut := by
  intro evs
  induction evs with
  | nil => intro processed x hx; simpa [pollLoop] using hx
  | cons h t ih =>
      intro processed x hx
      simp only [pollLoop]
      split_ifs
      · exact ih processed x hx
      · exact ih processed x hx
      · exact ih processed x hx
      · cases hsf : sf h with
        | none => simpa using ih (h.id_key :: processed) x (List.mem_cons_of_mem _ hx)
        | some j => simpa using ih processed x hx

/-- A message is only ever scheduled for a key that was not yet processed when
the cycle began. -/
theorem pollLoop_messages_fresh (sf : MacroEvent → Option Nat) (now : DateTime)
    (subs : List Int) :
    ∀ (evs : List MacroEvent) (processed : List String) (c : Int) (k : String),
      (c, k) ∈ (pollLoop sf now subs processed evs).messages → k ∉ processed := by
  intro evs
  induction evs with
  | nil => intro processed c k hm; simp [pollLoop] at hm
  | cons h t ih =>
      intro processed c k hm
      simp only [pollLoop] at hm
      split_ifs at hm with h1 h2 h3
      · exact ih processed c k hm
      · exact ih processed c k hm
      · exact ih processed c k hm
      · cases hsf : sf h with
        | none =>
            rw [hsf] at hm
            simp only [List.mem_append, List.mem_map] at hm
            rcases hm with ⟨c', _, heq⟩ | hm
            · cases heq
              exact h3
            · intro hk
              exact ih (h.id_key :: processed) c k hm (List.mem_cons_of_mem _ hk)
        | some j =>
            rw [hsf] at hm
            simp only [List.mem_append, List.mem_map] at hm
            rcases hm with ⟨c', _, heq⟩ | hm
            · cases heq
              exact h3
            · exact ih processed c k hm

/-- Every event a cycle notifies passed the three eligibility gates: a
non-empty `actual`, a release time at most one minute past `now`, and a dedup
key that was not yet processed. -/
theorem pollLoop_notified_props (sf : MacroEvent → Option Nat) (now : DateTime)
    (subs : List Int) :
    ∀ (evs : List MacroEvent) (processed : List String) (ev : MacroEvent),
      ev ∈ (pollLoop sf now subs processed evs).notified →
      actualMissing ev.actual = false
      ∧ ev.release_time_utc.toSec ≤ now.toSec + 60
      ∧ ev.id_key ∉ processed
      ∧ ev ∈ evs := by
  intro evs
  induction evs with
  | nil => intro processed ev hm; simp [pollLoop] at hm
  | cons h t ih =>
      intro processed ev hm
      simp only [pollLoop] at hm
      split_ifs at hm with h1 h2 h3
      · have r := ih processed ev hm
        exact ⟨r.1, r.2.1, r.2.2.1, List.mem_cons_of_mem _ r.2.2.2⟩
      · have r := ih processed ev hm
        exact ⟨r.1, r.2.1, r.2.2.1, List.mem_cons_of_mem _ r.2.2.2⟩
      · have r := ih processed ev hm
        exact ⟨r.1, r.2.1, r.2.2.1, List.mem_cons_of_mem _ r.2.2.2⟩
      · cases hsf : sf h with
        | none =>
            rw [hsf] at hm
            simp only [List.mem_cons] at hm
            rcases hm with rfl | hm
            · exact ⟨Bool.not_eq_true _ ▸ Bool.of_not_eq_true h1, le_of_not_lt h2, h3,
                List.mem_cons_self _ _⟩
            · have r := ih (h.id_key :: processed) ev hm
              exact ⟨r.1, r.2.1, fun hk => r.2.2.1 (List.mem_cons_of_mem _ hk),
                List.mem_cons_of_mem _ r.2.2.2⟩
        | some j =>
            rw [hsf] at hm
            have r := ih processed ev hm
            exact ⟨r.1, r.2.1, r.2.2.1, List.mem_cons_of_mem _ r.2.2.2⟩

/-- The key of every notified event is in the processed set written back. -/
theorem pollLoop_notified_persisted (sf : MacroEvent → Option Nat) (now : DateTime)
    (subs : List Int) :
    ∀ (evs : List MacroEvent) (processed : List String) (ev : MacroEvent),
      ev ∈ (pollLoop sf now subs processed evs).notified →
      ev.id_key ∈ (pollLoop sf now subs processed evs).processedOut := by
  intro evs
  induction evs with
  | nil => intro processed ev hm; simp [pollLoop] at hm
  | cons h t ih =>
      intro processed ev hm
      simp only [pollLoop] at hm ⊢
      split_ifs at hm ⊢
      · exact ih processed ev hm
      · exact ih processed ev hm
      · exact ih processed ev hm
      · cases hsf : sf h with
        | none =>
            rw [hsf] at hm
            replace hm : ev ∈ h :: (pollLoop sf now subs (h.id_key :: processed) t).notified := hm
            show ev.id_key ∈ (pollLoop sf now subs (h.id_key :: processed) t).processedOut
            rcases List.mem_cons.mp hm with rfl | hm2
            · exact pollLoop_mono sf now subs t (ev.id_key :: processed) ev.id_key
                (List.mem_cons_self _ _)
            · exact ih (h.id_key :: processed) ev hm2
        | some j =>
            rw [hsf] at hm
            replace hm : ev ∈ (pollLoop sf now subs processed t).notified := hm
            show ev.id_key ∈ (pollLoop sf now subs processed t).processedOut
            exact ih processed ev hm

/-- A key that was already processed is never among a loop run's notified keys. -/
theorem pollLoop_count_zero (sf : MacroEvent → Option Nat) (now : DateTime)
    (subs : List Int) (evs : List MacroEvent) (processed : List String) (k : String)
    (hk : k ∈ processed) :
    List.count k (notifiedKeys (pollLoop sf now subs processed evs)) = 0 := by
  rw [List.count_eq_zero]
  intro hmem
  obtain ⟨ev, hev, rfl⟩ := List.mem_map.mp hmem
  exact (pollLoop_notified_props sf now subs evs processed ev hev).2.2.1 hk

/-- Within one loop run no key is notified twice. -/
theorem pollLoop_count_le_one (sf : MacroEvent → Option Nat) (now : DateTime)
    (subs : List Int) :
    ∀ (evs : List MacroEvent) (processed : List String) (k : String),
      List.count k (notifiedKeys (pollLoop sf now subs processed evs)) ≤ 1 := by
  intro evs
  induction evs with
  | nil => intro processed k; simp [pollLoop, notifiedKeys]
  | cons h t ih =>
      intro processed k
      simp only [pollLoop]
      split_ifs
      · exact ih processed k
      · exact ih processed k
      · exact ih processed k
      · cases hsf : sf h with
        | none =>
            show List.count k
              (h.id_key :: notifiedKeys (pollLoop sf now subs (h.id_key :: processed) t)) ≤ 1
            rw [List.count_cons]
            by_cases hkey : k = h.id_key
            · subst hkey
              have h0 := pollLoop_count_zero sf now subs t (h.id_key :: processed) h.id_key
                (List.mem_cons_self _ _)
              simp [h0]
            · have hne : (h.id_key == k) = false :=
                beq_eq_false_iff_ne.mpr (fun hh => hkey hh.symm)
              simpa [hne] using ih (h.id_key :: processed) k
        | some j =>
            show List.count k (notifiedKeys (pollLoop sf now subs processed t)) ≤ 1
            exact ih processed k

/-- Cycle-level monotonicity of the persisted set. -/
theorem cycle_mono (inp : CycleInput) (processed : List String) (x : String)
    (hx : x ∈ processed) : x ∈ (poll_and_notify inp processed).processedOut := by
  unfold poll_and_notify
  split_ifs
  · exact hx
  · exact pollLoop_mono inp.sendFail inp.now inp.subs inp.events processed x hx

/-- Cycle-level: an already-processed key is not notified. -/
theorem cycle_count_zero (inp : CycleInput) (processed : List String) (k : String)
    (hk : k ∈ processed) :
    List.count k (notifiedKeys (poll_and_notify inp processed)) = 0 := by
  unfold poll_and_notify
  split_ifs
  · simp [notifiedKeys]
  · exact pollLoop_count_zero inp.sendFail inp.now inp.subs inp.events processed k hk

/-- Cycle-level: no key is notified twice in one cycle. -/
theorem cycle_count_le_one (inp : CycleInput) (processed : List String) (k : String) :
    List.count k (notifiedKeys (poll_and_notify inp processed)) ≤ 1 := by
  unfold poll_and_notify
  split_ifs
  · simp [notifiedKeys]
  · exact pollLoop_count_le_one inp.sendFail inp.now inp.subs inp.events processed k

/-- Cycle-level: a notified key is persisted. -/
theorem cycle_notified_persisted (inp : CycleInput) (processed : List String) (k : String)
    (hk : k ∈ notifiedKeys (poll_and_notify inp processed)) :
    k ∈ (poll_and_notify inp processed).processedOut := by
  unfold poll_and_notify at hk ⊢
  split_ifs at hk ⊢
  · simp [notifiedKeys] at hk
  · obtain ⟨ev, hev, rfl⟩ := List.mem_map.mp hk
    exact pollLoop_notified_persisted inp.sendFail inp.now inp.subs inp.events processed ev hev

/-- Across later cycles an already-persisted key is never notified again. -/
theorem allNotifiedKeys_zero (k : String) :
    ∀ (inps : List CycleInput) (processed : List String), k ∈ processed →
      List.count k (allNotifiedKeys processed inps) = 0 := by
  intro inps
  induction inps with
  | nil => intro processed _; simp [allNotifiedKeys]
  | cons inp rest ih =>
      intro processed hk
      simp only [allNotifiedKeys, List.count_append]
      rw [cycle_count_zero inp processed k hk,
        ih (poll_and_notify inp processed).processedOut (cycle_mono inp processed k hk)]

/-- Across any sequence of cycles, each key is notified at most once. -/
theorem allNotifiedKeys_le_one (k : String) :
    ∀ (inps : List CycleInput) (processed : List String),
      List.count k (allNotifiedKeys processed inps) ≤ 1 := by
  intro inps
  induction inps with
  | nil => intro processed; simp [allNotifiedKeys]
  | cons inp rest ih =>
      intro processed
      simp only [allNotifiedKeys, List.count_append]
      by_cases hk : k ∈ notifiedKeys (poll_and_notify inp processed)
      · have h0 := allNotifiedKeys_zero k rest (poll_and_notify inp processed).processedOut
          (cycle_notified_persisted inp processed k hk)
        have h1 := cycle_count_le_one inp processed k
        omega
      · rw [List.count_eq_zero.mpr hk]
        simpa using ih (poll_and_notify inp processed).processedOut

/-- When no send raises, every scheduled message belongs to a notified event. -/
theorem pollLoop_messages_notified (sf : MacroEvent → Option Nat) (now : DateTime)
    (subs : List Int) (hall : ∀ ev, sf ev = none) :
    ∀ (evs : List MacroEvent) (processed : List String) (c : Int) (k : String),
      (c, k) ∈ (pollLoop sf now subs processed evs).messages →
      k ∈ notifiedKeys (pollLoop sf now subs processed evs) := by
  intro evs
  induction evs with
  | nil => intro processed c k hm; simp [pollLoop] at hm
  | cons h t ih =>
      intro processed c k hm
      simp only [pollLoop] at hm ⊢
      split_ifs at hm ⊢
      · exact ih processed c k hm
      · exact ih processed c k hm
      · exact ih processed c k hm
      · cases hsf : sf h with
        | none =>
            rw [hsf] at hm
            replace hm : (c, k) ∈ subs.map (fun c => (c, h.id_key))
                ++ (pollLoop sf now subs (h.id_key :: processed) t).messages := hm
            show k ∈ h.id_key :: notifiedKeys (pollLoop sf now subs (h.id_key :: processed) t)
            rcases List.mem_append.mp hm with hm1 | hm2
            · obtain ⟨c', _, heq⟩ := List.mem_map.mp hm1
              cases heq
              exact List.mem_cons_self _ _
            · exact List.mem_cons_of_mem _ (ih (h.id_key :: processed) c k hm2)
        | some j =>
            rw [hall h] at hsf
            cases hsf

/-- If every event carrying key `k` has a failing send, `k` is not added. -/
theorem pollLoop_failed_not_added (sf : MacroEvent → Option Nat) (now : DateTime)
    (subs : List Int) :
    ∀ (evs : List MacroEvent) (processed : List String) (k : String),
      k ∉ processed →
      (∀ ev ∈ evs, ev.id_key = k → sf ev ≠ none) →
      k ∉ (pollLoop sf now subs processed evs).processedOut := by
  intro evs
  induction evs with
  | nil => intro processed k hk _; simpa [pollLoop] using hk
  | cons h t ih =>
      intro processed k hk hall
      have hallT : ∀ ev ∈ t, ev.id_key = k → sf ev ≠ none :=
        fun ev hev => hall ev (List.mem_cons_of_mem _ hev)
      simp only [pollLoop]
      split_ifs
      · exact ih processed k hk hallT
      · exact ih processed k hk hallT
      · exact ih processed k hk hallT
      · cases hsf : sf h with
        | none =>
            have hne : h.id_key ≠ k := by
              intro heq
              exact hall h (List.mem_cons_self _ _) heq hsf
            show k ∉ (pollLoop sf now subs (h.id_key :: processed) t).processedOut
            exact ih (h.id_key :: processed) k
              (by
                intro hmem
                rcases List.mem_cons.mp hmem with heq | hmem2
                · exact hne heq.symm
                · exact hk hmem2)
              hallT
        | some j =>
            show k ∉ (pollLoop sf now subs processed t).processedOut
            exact ih processed k hk hallT

/-! ## C1 — deduplication: each release is notified at most once -/

/-- C1: a dedup key already persisted when a poll cycle starts is never
messaged in that cycle; across any sequence of poll cycles (threading the
persisted set) each release key is notified at most once; and when no send
raises, every message a cycle schedules is for one of that cycle's notified
releases — so each release reaches the subscribers at most once. -/
theorem poll_dedup_at_most_once :
    (∀ (inp : CycleInput) (processed : List String) (c : Int) (k : String),
        k ∈ processed → (c, k) ∉ (poll_and_notify inp processed).messages)
    ∧ (∀ (inps : List CycleInput) (processed : List String) (k : String),
        List.count k (allNotifiedKeys processed inps) ≤ 1)
    ∧ (∀ (inp : CycleInput) (processed : List String) (c : Int) (k : String),
        (∀ ev, inp.sendFail ev = none) →
        (c, k) ∈ (poll_and_notify inp processed).messages →
        k ∈ notifiedKeys (poll_and_notify inp processed)) := by
  refine ⟨?_, ?_, ?_⟩
  · intro inp processed c k hk hm
    unfold poll_and_notify at hm
    split_ifs at hm
    · simp at hm
    · exact pollLoop_messages_fresh inp.sendFail inp.now inp.subs inp.events processed c k hm hk
  · intro inps processed k
    exact allNotifiedKeys_le_one k inps processed
  · intro inp processed c k hall hm
    unfold poll_and_notify at hm ⊢
    split_ifs at hm ⊢
    · simp at hm
    · exact pollLoop_messages_notified inp.sendFail inp.now inp.subs hall
        inp.events processed c k hm

/-- Witness for C1: with `evW1`'s key persisted, subscriber 7 gets no message
for it; over two cycles its key is notified at most once; and in a clean first
cycle every message sent carries a notified key. -/
theorem poll_dedup_at_most_once_witness :
    ("US|CPI|2024-01-05T13:30:00" ∈ (["US|CPI|2024-01-05T13:30:00"] : List String)
      ∧ (7, "US|CPI|2024-01-05T13:30:00")
          ∉ (poll_and_notify inpW1 ["US|CPI|2024-01-05T13:30:00"]).messages)
    ∧ List.count "US|CPI|2024-01-05T13:30:00" (allNotifiedKeys [] inpsW) ≤ 1
    ∧ "US|CPI|2024-01-05T13:30:00" ∈ notifiedKeys (poll_and_notify inpW1 []) := by
  refine ⟨⟨by decide, ?_⟩, ?_, ?_⟩
  · exact poll_dedup_at_most_once.1 inpW1 ["US|CPI|2024-01-05T13:30:00"] 7
      "US|CPI|2024-01-05T13:30:00" (by decide)
  · exact poll_dedup_at_most_once.2.1 inpsW [] "US|CPI|2024-01-05T13:30:00"
  · exact poll_dedup_at_most_once.2.2 inpW1 [] 7 "US|CPI|2024-01-05T13:30:00"
      (fun ev => rfl) (by decide)

/-! ## C2 — the eligibility gate -/

/-- Counterexample to C2: the event `evFut`, released 30 seconds *after* the
poll instant (strictly in the future), is nevertheless notified — the code only
skips releases more than one minute in the future (`> now + timedelta(minutes=1)`),
so "release time not in the future" is not the implemented gate. -/
theorem poll_notifies_future_release :
    evFut ∈ (poll_and_notify inpFut []).notified
    ∧ inpFut.now.toSec < evFut.release_time_utc.toSec := by
  decide

/-- C2 (amended): an event is notified only if its `actual` is non-empty (not
`None` and not whitespace-only) and its release time is at most one minute
after the poll instant; every event failing either condition is skipped. -/
theorem poll_eligibility_gate :
    (∀ (inp : CycleInput) (processed : List String) (ev : MacroEvent),
        ev ∈ (poll_and_notify inp processed).notified →
        actualMissing ev.actual = false
        ∧ ev.release_time_utc.toSec ≤ inp.now.toSec + 60)
    ∧ (∀ (inp : CycleInput) (processed : List String) (ev : MacroEvent),
        (actualMissing ev.actual = true ∨ inp.now.toSec + 60 < ev.release_time_utc.toSec) →
        ev ∉ (poll_and_notify inp processed).notified) := by
  have key : ∀ (inp : CycleInput) (processed : List String) (ev : MacroEvent),
      ev ∈ (poll_and_notify inp processed).notified →
      actualMissing ev.actual = false ∧ ev.release_time_utc.toSec ≤ inp.now.toSec + 60 := by
    intro inp processed ev hm
    unfold poll_and_notify at hm
    split_ifs at hm
    · simp at hm
    · have r := pollLoop_notified_props inp.sendFail inp.now inp.subs inp.events processed ev hm
      exact ⟨r.1, r.2.1⟩
  refine ⟨key, ?_⟩
  intro inp processed ev hbad hm
  have r := key inp processed ev hm
  rcases hbad with hbad | hbad
  · rw [r.1] at hbad
    cases hbad
  · exact absurd r.2 (not_le_of_lt hbad)

/-- Witness for C2 (amended) at the eligible event `evW1`. -/
theorem poll_eligibility_gate_witness :
    evW1 ∈ (poll_and_notify inpW1 []).notified
    ∧ actualMissing evW1.actual = false
    ∧ evW1.release_time_utc.toSec ≤ inpW1.now.toSec + 60 := by
  refine ⟨by decide, ?_⟩
  have h := poll_eligibility_gate.1 inpW1 [] evW1 (by decide)
  exact ⟨h.1, h.2⟩

/-! ## C8 — state unchanged when a send raises -/

/-- C8: if the send of an event's message raises, the event's dedup key is not
added to the processed set (if every event carrying that key fails to send in a
cycle, the key stays absent); keys of events whose sends completed earlier in
the same cycle are still persisted; and an event whose key was thus left
unpersisted is notified by a later cycle in which it is seen again, is still
eligible, and its send succeeds. -/
theorem poll_send_error_preserves_state :
    (∀ (inp : CycleInput) (processed : List String) (k : String),
        k ∉ processed →
        (∀ ev ∈ inp.events, ev.id_key = k → inp.sendFail ev ≠ none) →
        k ∉ (poll_and_notify inp processed).processedOut)
    ∧ (∀ (inp : CycleInput) (processed : List String) (ev : MacroEvent),
        ev ∈ (poll_and_notify inp processed).notified →
        ev.id_key ∈ (poll_and_notify inp processed).processedOut)
    ∧ (∀ (inp : CycleInput) (processed : List String) (ev : MacroEvent)
        (rest : List MacroEvent),
        inp.events = ev :: rest →
        actualMissing ev.actual = false →
        ev.release_time_utc.toSec ≤ inp.now.toSec + 60 →
        ev.id_key ∉ processed →
        inp.subs ≠ [] →
        inp.sendFail ev = none →
        ev ∈ (poll_and_notify inp processed).notified) := by
  refine ⟨?_, ?_, ?_⟩
  · intro inp processed k hk hall
    unfold poll_and_notify
    split_ifs
    · exact hk
    · exact pollLoop_failed_not_added inp.sendFail inp.now inp.subs inp.events processed k hk hall
  · intro inp processed ev hm
    unfold poll_and_notify at hm ⊢
    split_ifs at hm ⊢
    · simp at hm
    · exact pollLoop_notified_persisted inp.sendFail inp.now inp.subs inp.events processed ev hm
  · intro inp processed ev rest hev hma hrel hk hsubs hsf
    unfold poll_and_notify
    rw [if_neg hsubs, hev]
    simp only [pollLoop]
    rw [if_neg (by simp [hma]), if_neg (not_lt.mpr hrel), if_neg hk, hsf]
    exact List.mem_cons_self _ _

/-- Witness for C8: in `inpW8` the send of `evW1` raises and `evW2` goes
through — `evW1`'s key is not persisted, `evW2`'s is; and in the later clean
cycle `inpW1` the event is notified. -/
theorem poll_send_error_preserves_state_witness :
    ("US|CPI|2024-01-05T13:30:00" ∉ (poll_and_notify inpW8 []).processedOut)
    ∧ (evW2.id_key ∈ (poll_and_notify inpW8 []).processedOut)
    ∧ evW1 ∈ (poll_and_notify inpW1 []).notified := by
  refine ⟨?_, ?_, ?_⟩
  · refine poll_send_error_preserves_state.1 inpW8 [] "US|CPI|2024-01-05T13:30:00"
      (by decide) ?_
    intro ev hmem hkey
    show (if ev.id_key = evW1.id_key then some 0 else none) ≠ none
    rw [if_pos (by rw [hkey]; rfl)]
    exact Option.some_ne_none 0
  · exact poll_send_error_preserves_state.2.1 inpW8 [] evW2 (by decide)
  · exact poll_send_error_preserves_state.2.2 inpW1 [] evW1 [] rfl (by decide) (by decide)
      (by decide) (by decide) rfl
